import Mathlib

/-!
Shallow embedding of the pixel-evolution simulation engine (src/main.js).

Conventions used throughout:

* JS numbers holding gene counts, ids and coordinates are embedded as `Nat`;
  agent hit points, which the combat loop drives below zero, are `Int`.
* The grid (`board` in the source) is a function `Nat → Nat → Option Nat`
  giving the occupying agent id of each cell; `board[y][x] = null` becomes
  `none`.  JS truthiness of a cell value (`if (board[y][x])`) is embedded by
  `truthy`: both `null` and the id `0` are falsy in JS, so `none` and
  `some 0` are both "falsy" cells.
* `Math.random()`-driven choices are passed in as explicit oracle arguments
  (index rolls, a shuffled candidate list, a mutation decision), quantified
  over in the theorems.  `Math.floor(Math.random() * n)` produces an
  arbitrary index in `[0, n)`, embedded as an arbitrary `Nat` taken `% n`.
* The rendering, logging and DOM parts of the source (canvas drawing,
  `logCombat` / `combatLogs`, tooltip handling) are presentation-only
  collaborators outside the simulation core and are not modelled; for the
  same reason the derived `color` field of a pixel (a float computation
  feeding the renderer only) is omitted from the `Pixel` record.
-/

/-- CONFIG.gridSize from the source. -/
def gridSize : Nat := 50

/-- CONFIG.genesPerPixel from the source. -/
def genesPerPixel : Nat := 8

/-- The four gene categories, in the canonical order of GENE_TYPES. -/
inductive GType where
  | attack
  | defense
  | speed
  | hp
deriving DecidableEq

/-- GENE_TYPES = ["attack", "defense", "speed", "hp"]. -/
def GENE_TYPES : List GType :=
  [GType.attack, GType.defense, GType.speed, GType.hp]

/-- GENE_SYMBOL: the single display character of each category. -/
def GENE_SYMBOL : GType → Char
  | GType.attack => 'A'
  | GType.defense => 'D'
  | GType.speed => 'S'
  | GType.hp => 'H'

/-- A gene vector: non-negative counts for the four categories. -/
structure Genes where
  attack : Nat
  defense : Nat
  speed : Nat
  hp : Nat
deriving DecidableEq

/-- Read one category of a gene vector (genes[type] in the source). -/
def gget (g : Genes) : GType → Nat
  | GType.attack => g.attack
  | GType.defense => g.defense
  | GType.speed => g.speed
  | GType.hp => g.hp

/-- Write one category of a gene vector (genes[type] = v in the source). -/
def gset (g : Genes) : GType → Nat → Genes
  | GType.attack, v => { g with attack := v }
  | GType.defense, v => { g with defense := v }
  | GType.speed, v => { g with speed := v }
  | GType.hp, v => { g with hp := v }

/-- Sum of the four category counts of a gene vector. -/
def geneSum (g : Genes) : Nat :=
  g.attack + g.defense + g.speed + g.hp

/-- GENE_TYPES[i] for an arbitrary JS index roll i (always taken mod 4). -/
def geneTypeAt (i : Nat) : GType :=
  match i % 4 with
  | 0 => GType.attack
  | 1 => GType.defense
  | 2 => GType.speed
  | _ => GType.hp

/-- The accumulation loop of randomGenes: `total` single-unit increments,
the i-th increment going to the category chosen by the i-th random roll. -/
def distributeGenes : Nat → (Nat → Nat) → Genes
  | 0, _ => ⟨0, 0, 0, 0⟩
  | n + 1, rolls =>
    let g := distributeGenes n rolls
    let t := geneTypeAt (rolls n)
    gset g t (gget g t + 1)

/-- randomGenes(total) from the source: distribute `total` units uniformly at
random over the categories, then force hp to 1 if it ended up 0.  The random
rolls are the oracle argument `rolls`. -/
def randomGenes (total : Nat) (rolls : Nat → Nat) : Genes :=
  let genes := distributeGenes total rolls
  if genes.hp = 0 then { genes with hp := 1 } else genes

/-- genesToCode(genes): for each category in canonical order, its symbol
character repeated once per unit (Array(genes[type]).fill(symbol), joined). -/
def genesToCode (g : Genes) : String :=
  ⟨GENE_TYPES.flatMap fun t => List.replicate (gget g t) (GENE_SYMBOL t)⟩

/-- mutateGenes(genes) from the source.  Oracle arguments: `doMutate` is the
outcome of the `Math.random() < CONFIG.mutationChance` test, `fromRoll` the
index roll for the source category, `toRoll` the roll for the destination.
The do/while in the source re-rolls the destination until it differs from
the source category; its result is therefore one of the three remaining
categories, embedded by indexing the filtered list with `toRoll`. -/
def mutateGenes (g : Genes) (doMutate : Bool) (fromRoll toRoll : Nat) : Genes :=
  if doMutate then
    let fromTypes := GENE_TYPES.filter fun t =>
      gget g t > (if t = GType.hp then 1 else 0)
    match fromTypes.get? (fromRoll % fromTypes.length) with
    | none => g
    | some from_ =>
      let toTypes := GENE_TYPES.filter fun t => t ≠ from_
      match toTypes.get? (toRoll % toTypes.length) with
      | none => g
      | some to_ =>
        gset (gset g from_ (gget g from_ - 1)) to_ (gget g to_ + 1)
  else g

/-- An agent ("pixel").  Field for field the Pixel class of the source,
except the presentation-only cached `color` (see the module comment).
The global `pixelIdCounter++` of the constructor is modelled by the caller
passing in the current counter value and bumping it. -/
structure Pixel where
  id : Nat
  x : Nat
  y : Nat
  genes : Genes
  populationId : Nat
  maxHp : Nat
  hp : Int
  geneCode : String
deriving DecidableEq

/-- new Pixel(x, y, genes, populationId) with a given fresh id. -/
def mkPixel (id x y : Nat) (genes : Genes) (populationId : Nat) : Pixel :=
  { id := id
    x := x
    y := y
    genes := genes
    populationId := populationId
    maxHp := max 1 genes.hp
    hp := (max 1 genes.hp : Nat)
    geneCode := genesToCode genes }

/-- The grid: cell (x, y) holds the occupying agent id, or `none`
(board[y][x] in the source, with null embedded as `none`). -/
def Board : Type := Nat → Nat → Option Nat

/-- Read a cell of the board. -/
def getCell (b : Board) (x y : Nat) : Option Nat := b x y

/-- Write a cell of the board (board[y][x] = v). -/
def setCell (b : Board) (x y : Nat) (v : Option Nat) : Board :=
  fun x0 y0 => if x0 = x ∧ y0 = y then v else b x0 y0

/-- JS truthiness of a cell value: null and the number 0 are falsy. -/
def truthy : Option Nat → Bool
  | none => false
  | some n => n ≠ 0

/-- The whole mutable simulation state: the board, the agent registry
(the `pixels` Map, as an id-keyed association list in insertion order)
and the global `pixelIdCounter`. -/
structure SimState where
  board : Board
  reg : List Pixel
  counter : Nat

/-- pixels.get(id). -/
def regGet (reg : List Pixel) (id : Nat) : Option Pixel :=
  reg.find? fun q => q.id == id

/-- pixels.set(p.id, p): replace the entry with the same id if present,
otherwise append (JS Map insertion order). -/
def regSet (reg : List Pixel) (p : Pixel) : List Pixel :=
  if reg.any (fun q => q.id == p.id) then
    reg.map fun q => if q.id = p.id then p else q
  else reg ++ [p]

/-- pixels.delete(id). -/
def regDelete (reg : List Pixel) (id : Nat) : List Pixel :=
  reg.filter fun q => q.id ≠ id

/-- In-place mutation `obj.hp = h` of the registry-shared pixel object. -/
def regSetHp (reg : List Pixel) (id : Nat) (h : Int) : List Pixel :=
  reg.map fun q => if q.id = id then { q with hp := h } else q

/-- In-place mutation of the shared pixel object's coordinates. -/
def regSetPos (reg : List Pixel) (id : Nat) (nx ny : Nat) : List Pixel :=
  reg.map fun q => if q.id = id then { q with x := nx, y := ny } else q

/-- placePixel(pixel): fail on a truthy target cell, otherwise record the
pixel in the board and the registry. -/
def placePixel (p : Pixel) (st : SimState) : SimState × Bool :=
  if truthy (getCell st.board p.x p.y) then (st, false)
  else
    ({ st with
        board := setCell st.board p.x p.y (some p.id)
        reg := regSet st.reg p },
      true)

/-- removePixel(pixel): clear the cell recorded on the pixel and delete the
registry entry. -/
def removePixel (st : SimState) (p : Pixel) : SimState :=
  { st with
      board := setCell st.board p.x p.y none
      reg := regDelete st.reg p.id }

/-- clamp(value, min, max) = Math.max(min, Math.min(max, value)). -/
def clamp (value lo hi : Int) : Int :=
  max lo (min hi value)

/-- The eight movement directions, in source order. -/
def directions : List (Int × Int) :=
  [(1, 0), (-1, 0), (0, 1), (0, -1), (1, 1), (1, -1), (-1, 1), (-1, -1)]

/-- directions[i] for an arbitrary index roll (always taken mod 8). -/
def dirAt (i : Nat) : Int × Int :=
  directions.getD (i % 8) (1, 0)

/-- Target cell of one movement sub-step: the mover's position displaced by
the rolled direction and clamped into the grid. -/
def targetCell (p : Pixel) (dirIdx : Nat) : Nat × Nat :=
  let d := dirAt dirIdx
  ((clamp ((p.x : Int) + d.1) 0 ((gridSize : Int) - 1)).toNat,
    (clamp ((p.y : Int) + d.2) 0 ((gridSize : Int) - 1)).toNat)

/-- The while loop of resolveCombat, with the two hp fields pulled out of the
mutated objects.  `ag`/`bg` are the attacker's and defender's genes, `aHp`/
`bHp` their current hit points, `aTurn` says whose turn it is (`true` means
the attacker acts).  Returns the final hit points of both along with the
list of turns taken (`true` entries are turns on which the attacker dealt
damage).  The loop guard re-checks both hp, and a turn breaks out as soon as
it drops its target to 0 or below — exactly the source's control flow. -/
def combatLoop (ag bg : Genes) (aHp bHp : Int) (aTurn : Bool) :
    Int × Int × List Bool :=
  if h : 0 < aHp ∧ 0 < bHp then
    if aTurn then
      if h2 : bHp - max 1 ((ag.attack : Int) - (bg.defense : Int)) ≤ 0 then
        (aHp, bHp - max 1 ((ag.attack : Int) - (bg.defense : Int)), [true])
      else
        ((combatLoop ag bg aHp
            (bHp - max 1 ((ag.attack : Int) - (bg.defense : Int))) false).1,
          (combatLoop ag bg aHp
            (bHp - max 1 ((ag.attack : Int) - (bg.defense : Int))) false).2.1,
          true :: (combatLoop ag bg aHp
            (bHp - max 1 ((ag.attack : Int) - (bg.defense : Int))) false).2.2)
    else
      if h2 : aHp - max 1 ((bg.attack : Int) - (ag.defense : Int)) ≤ 0 then
        (aHp - max 1 ((bg.attack : Int) - (ag.defense : Int)), bHp, [false])
      else
        ((combatLoop ag bg
            (aHp - max 1 ((bg.attack : Int) - (ag.defense : Int))) bHp true).1,
          (combatLoop ag bg
            (aHp - max 1 ((bg.attack : Int) - (ag.defense : Int))) bHp true).2.1,
          false :: (combatLoop ag bg
            (aHp - max 1 ((bg.attack : Int) - (ag.defense : Int))) bHp true).2.2)
  else (aHp, bHp, [])
termination_by aHp.toNat + bHp.toNat
decreasing_by
  · have h3 : (1 : Int) ≤ max 1 ((ag.attack : Int) - (bg.defense : Int)) :=
      le_max_left _ _
    omega
  · have h3 : (1 : Int) ≤ max 1 ((bg.attack : Int) - (ag.defense : Int)) :=
      le_max_left _ _
    omega

/-- The turn-order conditional at the top of resolveCombat: `true` when the
attacker moves first (strictly higher speed, or a speed tie). -/
def firstMover (attacker defender : Pixel) : Bool :=
  if attacker.genes.speed > defender.genes.speed then true
  else if attacker.genes.speed < defender.genes.speed then false
  else true

/-- The random draws consumed by one combat resolution: the shuffled
offspring candidate offsets, and the three draws of mutateGenes. -/
structure CombatRandoms where
  offs : List (Int × Int)
  doMutate : Bool
  fromRoll : Nat
  toRoll : Nat

/-- The canonical candidate offsets built by the double loop at the top of
createOffspring: dy outer from -2 to 2, dx inner from -2 to 2, keeping the
offsets with Manhattan distance 1 or 2. -/
def offspringOffsets : List (Int × Int) :=
  ((List.range 5).flatMap fun dy =>
    (List.range 5).map fun dx => ((dx : Int) - 2, (dy : Int) - 2)).filter
    fun d => d.1.natAbs + d.2.natAbs ≠ 0 ∧ d.1.natAbs + d.2.natAbs ≤ 2

/-- The candidate loop of createOffspring over the (shuffled) offset list:
skip out-of-bounds targets, skip truthy cells, and at the first remaining
cell build the mutated child with the current id counter and place it. -/
def createOffspringGo (st : SimState) (parent : Pixel) (cr : CombatRandoms) :
    List (Int × Int) → SimState
  | [] => st
  | (dx, dy) :: rest =>
    let nx := (parent.x : Int) + dx
    let ny := (parent.y : Int) + dy
    if nx < 0 ∨ ny < 0 ∨ (gridSize : Int) ≤ nx ∨ (gridSize : Int) ≤ ny then
      createOffspringGo st parent cr rest
    else if truthy (getCell st.board nx.toNat ny.toNat) then
      createOffspringGo st parent cr rest
    else
      let genes := mutateGenes parent.genes cr.doMutate cr.fromRoll cr.toRoll
      let child := mkPixel st.counter nx.toNat ny.toNat genes parent.populationId
      (placePixel child { st with counter := st.counter + 1 }).1

/-- createOffspring(parent): try the candidate cells in the shuffled order
given by the oracle (`cr.offs`, a permutation of `offspringOffsets`). -/
def createOffspring (st : SimState) (parent : Pixel) (cr : CombatRandoms) :
    SimState :=
  createOffspringGo st parent cr cr.offs

/-- resolveCombat(attacker, defender).  Runs the duel loop on the two hp
values, writes the in-place hp mutations back to the registry, removes the
loser when its hp dropped to 0 or below, heals the winner to maxHp, spawns
offspring of the winner, and returns the winner object with the new state.
The logCombat call is an external logging collaborator and is not modelled. -/
def resolveCombat (st : SimState) (attacker defender : Pixel)
    (cr : CombatRandoms) : Pixel × SimState :=
  let r := combatLoop attacker.genes defender.genes attacker.hp defender.hp
    (firstMover attacker defender)
  let aHp := r.1
  let dHp := r.2.1
  let st1 : SimState :=
    { st with reg := regSetHp (regSetHp st.reg attacker.id aHp) defender.id dHp }
  let wl := if 0 < aHp
    then ({ attacker with hp := aHp }, { defender with hp := dHp })
    else ({ defender with hp := dHp }, { attacker with hp := aHp })
  let winner := wl.1
  let loser := wl.2
  let st2 := if loser.hp ≤ 0 then removePixel st1 loser else st1
  let winner' := { winner with hp := (winner.maxHp : Int) }
  let st3 : SimState := { st2 with reg := regSetHp st2.reg winner'.id (winner.maxHp : Int) }
  let st4 := createOffspring st3 winner' cr
  (winner', st4)

/-- The board and registry writes of a successful move: clear the mover's
old cell, update the shared object's coordinates, record the id in the
target cell. -/
def movePixelTo (st : SimState) (p : Pixel) (nx ny : Nat) : SimState :=
  { st with
      board := setCell (setCell st.board p.x p.y none) nx ny (some p.id)
      reg := regSetPos st.reg p.id nx ny }

/-- One sub-step of the movement loop of stepSimulation, for the mover
object `p` with the rolled direction index.  The returned Bool is `true`
when the loop continues to the next sub-step and `false` on the `break`
paths after a combat encounter. -/
def moveSubStep (st : SimState) (p : Pixel) (dirIdx : Nat)
    (cr : CombatRandoms) : SimState × Bool :=
  let t := targetCell p dirIdx
  let nx := t.1
  let ny := t.2
  if nx = p.x ∧ ny = p.y then (st, true)
  else
    let occ := getCell st.board nx ny
    if truthy occ = false then (movePixelTo st p nx ny, true)
    else
      let oid := occ.getD 0
      if oid = p.id then (st, true)
      else
        match regGet st.reg oid with
        | none => (st, true)
        | some opponent =>
          if p.geneCode = opponent.geneCode then (st, true)
          else
            let w := resolveCombat st p opponent cr
            if w.1.id = p.id then (movePixelTo w.2 p nx ny, false)
            else (w.2, false)

/-- The inner sub-step loop of one agent's turn: `k` remaining sub-steps,
re-reading the shared pixel object from the registry each time (the source
mutates the object in place, so a re-read is the aliased view). -/
def agentTurnGo (pid : Nat) (dirs : Nat → Nat) (cr : CombatRandoms) :
    Nat → SimState → SimState
  | 0, st => st
  | k + 1, st =>
    match regGet st.reg pid with
    | none => st
    | some p =>
      let r := moveSubStep st p (dirs k) cr
      if r.2 then agentTurnGo pid dirs cr k r.1 else r.1

/-- One agent's whole turn: skip if the agent is gone from the registry
(the liveness re-check of the tick loop), otherwise run
max(1, genes.speed) sub-steps. -/
def agentTurn (st : SimState) (pid : Nat) (dirs : Nat → Nat)
    (cr : CombatRandoms) : SimState :=
  match regGet st.reg pid with
  | none => st
  | some p => agentTurnGo pid dirs cr (max 1 p.genes.speed) st

/-- The per-agent loop of stepSimulation over the shuffled snapshot, with
the direction rolls and combat randoms supplied per snapshot position
(a turn runs at most one combat, since the loop breaks after combat). -/
def stepSimGo (dirss : Nat → Nat → Nat) (crs : Nat → CombatRandoms) :
    List Nat → Nat → SimState → SimState
  | [], _, st => st
  | pid :: rest, i, st =>
    stepSimGo dirss crs rest (i + 1) (agentTurn st pid (dirss i) (crs i))

/-- stepSimulation(): one full tick.  The snapshot of live agents and its
unbiased shuffle are modelled by the oracle list `order` of agent ids. -/
def stepSimulation (st : SimState) (order : List Nat)
    (dirss : Nat → Nat → Nat) (crs : Nat → CombatRandoms) : SimState :=
  stepSimGo dirss crs order 0 st

/-- Executable check of the occupancy-consistency invariant: every
registered agent's recorded cell holds exactly its own id, and every
occupied in-grid cell names a registered agent recorded at that cell. -/
def occupancyOK (st : SimState) : Bool :=
  (st.reg.all fun p => st.board p.x p.y == some p.id) &&
    (List.range gridSize).all fun x =>
      (List.range gridSize).all fun y =>
        match st.board x y with
        | none => true
        | some i =>
          match regGet st.reg i with
          | none => false
          | some p => p.x == x && p.y == y

/-- Executable well-formedness of a simulation state: occupancy consistency
plus the structural facts the engine maintains for every live agent
(coordinates on the grid, positive hp bounded by maxHp, maxHp and geneCode
derived from the genes, ids below the fresh-id counter and pairwise
distinct). -/
def wellFormed (st : SimState) : Bool :=
  occupancyOK st &&
    st.reg.all (fun p =>
      decide (p.x < gridSize) && decide (p.y < gridSize) &&
      decide (0 < p.hp) && decide (p.hp ≤ (p.maxHp : Int)) &&
      (p.maxHp == max 1 p.genes.hp) && (p.geneCode == genesToCode p.genes) &&
      decide (p.id < st.counter)) &&
    decide (st.reg.map Pixel.id).Nodup

/-! ### Gene-level lemmas -/

theorem geneSum_distributeGenes (total : Nat) (rolls : Nat → Nat) :
    geneSum (distributeGenes total rolls) = total := by
  induction total with
  | zero => rfl
  | succ n ih =>
    simp only [distributeGenes]
    cases geneTypeAt (rolls n) <;>
      simp [gset, gget, geneSum] <;> simp [geneSum] at ih <;> omega

/-! ### Combat-loop lemmas -/

theorem combatLoop_one_dead (ag bg : Genes) (aHp bHp : Int) (t : Bool)
    (ha : 0 < aHp) (hb : 0 < bHp) :
    (0 < (combatLoop ag bg aHp bHp t).1 ∧ (combatLoop ag bg aHp bHp t).2.1 ≤ 0) ∨
      ((combatLoop ag bg aHp bHp t).1 ≤ 0 ∧ 0 < (combatLoop ag bg aHp bHp t).2.1) := by
  induction aHp, bHp, t using combatLoop.induct ag bg with
  | case1 a b hg h2 =>
    rw [combatLoop]
    simp [hg, h2]
  | case2 a b hg h2 ih =>
    rw [combatLoop]
    simp [hg, h2]
    exact ih ha (by omega)
  | case3 a b tb hg hnt h2 =>
    rw [combatLoop]
    simp [hg, hnt, h2]
  | case4 a b tb hg hnt h2 ih =>
    rw [combatLoop]
    simp [hg, hnt, h2]
    exact ih (by omega) hb
  | case5 a b tb hg => exact absurd ⟨ha, hb⟩ hg

theorem combatLoop_length (ag bg : Genes) (aHp bHp : Int) (t : Bool) :
    (combatLoop ag bg aHp bHp t).2.2.length ≤ aHp.toNat + bHp.toNat := by
  induction aHp, bHp, t using combatLoop.induct ag bg with
  | case1 a b hg h2 =>
    rw [combatLoop]
    simp [hg, h2]
    omega
  | case2 a b hg h2 ih =>
    rw [combatLoop]
    simp [hg, h2]
    have h3 : (1 : Int) ≤ 1 ⊔ ((ag.attack : Int) - (bg.defense : Int)) :=
      le_max_left _ _
    omega
  | case3 a b tb hg hnt h2 =>
    rw [combatLoop]
    simp [hg, hnt, h2]
    omega
  | case4 a b tb hg hnt h2 ih =>
    rw [combatLoop]
    simp [hg, hnt, h2]
    have h3 : (1 : Int) ≤ 1 ⊔ ((bg.attack : Int) - (ag.defense : Int)) :=
      le_max_left _ _
    omega
  | case5 a b tb hg =>
    rw [combatLoop]
    simp [hg]

theorem combatLoop_head (ag bg : Genes) (aHp bHp : Int) (t : Bool)
    (ha : 0 < aHp) (hb : 0 < bHp) :
    (combatLoop ag bg aHp bHp t).2.2.head? = some t := by
  rw [combatLoop]
  have hg : 0 < aHp ∧ 0 < bHp := ⟨ha, hb⟩
  cases t <;> simp [hg] <;> split <;> simp

/-! ### Registry lemmas -/

theorem regGet_cons (q : Pixel) (rest : List Pixel) (j : Nat) :
    regGet (q :: rest) j = if q.id = j then some q else regGet rest j := by
  unfold regGet
  rw [List.find?_cons]
  by_cases h : q.id = j
  · simp [h]
  · have hb : (q.id == j) = false := by simp [h]
    simp [h, hb]

theorem regGet_id (reg : List Pixel) (j : Nat) (q : Pixel)
    (h : regGet reg j = some q) : q.id = j := by
  have := List.find?_some h
  simpa using this

theorem regGet_mem (reg : List Pixel) (j : Nat) (q : Pixel)
    (h : regGet reg j = some q) : q ∈ reg :=
  List.mem_of_find?_eq_some h

theorem regGet_map (reg : List Pixel) (f : Pixel → Pixel)
    (hf : ∀ q, (f q).id = q.id) (j : Nat) :
    regGet (reg.map f) j = (regGet reg j).map f := by
  induction reg with
  | nil => rfl
  | cons q rest ih =>
    simp only [List.map_cons, regGet_cons, hf]
    by_cases hq : q.id = j <;> simp [hq, ih]

theorem regGet_regSetHp_ne (reg : List Pixel) (i : Nat) (h : Int) (j : Nat)
    (hne : j ≠ i) : regGet (regSetHp reg i h) j = regGet reg j := by
  unfold regSetHp
  rw [regGet_map]
  · cases hq : regGet reg j with
    | none => rfl
    | some q =>
      have hid := regGet_id reg j q hq
      simp [hid, hne]
  · intro q
    by_cases hq : q.id = i <;> simp [hq]

theorem regGet_regSetHp_eq (reg : List Pixel) (i : Nat) (h : Int) :
    regGet (regSetHp reg i h) i =
      (regGet reg i).map fun q => { q with hp := h } := by
  unfold regSetHp
  rw [regGet_map]
  · cases hq : regGet reg i with
    | none => rfl
    | some q =>
      have hid := regGet_id reg i q hq
      simp [hid]
  · intro q
    by_cases hq : q.id = i <;> simp [hq]

theorem regGet_regDelete_eq (reg : List Pixel) (i : Nat) :
    regGet (regDelete reg i) i = none := by
  induction reg with
  | nil => rfl
  | cons q rest ih =>
    unfold regDelete at ih ⊢
    rw [List.filter_cons]
    by_cases hq : q.id = i
    · simp only [hq]
      rw [if_neg (by simp)]
      exact ih
    · rw [if_pos (by simp [hq]), regGet_cons, if_neg hq]
      exact ih

theorem regGet_regDelete_ne (reg : List Pixel) (i j : Nat) (hne : j ≠ i) :
    regGet (regDelete reg i) j = regGet reg j := by
  induction reg with
  | nil => rfl
  | cons q rest ih =>
    unfold regDelete at ih ⊢
    rw [List.filter_cons]
    by_cases hq : q.id = i
    · rw [if_neg (by simp [hq]), ih, regGet_cons,
        if_neg (by rw [hq]; exact Ne.symm hne)]
    · rw [if_pos (by simp [hq]), regGet_cons, regGet_cons, ih]

theorem regGet_regSet_ne (reg : List Pixel) (p : Pixel) (j : Nat)
    (hne : j ≠ p.id) : regGet (regSet reg p) j = regGet reg j := by
  unfold regSet
  split
  · rw [regGet_map]
    · cases hq : regGet reg j with
      | none => rfl
      | some q =>
        have hid := regGet_id reg j q hq
        simp [hid, hne]
    · intro q
      by_cases hq : q.id = p.id <;> simp [hq]
  · unfold regGet
    rw [List.find?_append]
    cases hq : reg.find? fun q => q.id == j with
    | some q => rfl
    | none =>
      have hb : (p.id == j) = false := by simp [Ne.symm hne]
      simp [List.find?, hb]

/-! ### Offspring lemmas -/

theorem createOffspringGo_cases (st : SimState) (parent : Pixel)
    (cr : CombatRandoms) (l : List (Int × Int)) :
    createOffspringGo st parent cr l = st ∨
      ∃ nx ny : Nat, truthy (getCell st.board nx ny) = false ∧
        createOffspringGo st parent cr l =
          (placePixel
            (mkPixel st.counter nx ny
              (mutateGenes parent.genes cr.doMutate cr.fromRoll cr.toRoll)
              parent.populationId)
            { st with counter := st.counter + 1 }).1 := by
  induction l with
  | nil => exact Or.inl rfl
  | cons d rest ih =>
    obtain ⟨dx, dy⟩ := d
    rw [createOffspringGo]
    split
    · exact ih
    · split
      · exact ih
      · next hocc =>
        refine Or.inr ⟨_, _, ?_, rfl⟩
        simpa using hocc

theorem placePixel_board_of_falsy (p : Pixel) (st : SimState)
    (h : truthy (getCell st.board p.x p.y) = false) :
    (placePixel p st).1 =
      { st with
          board := setCell st.board p.x p.y (some p.id)
          reg := regSet st.reg p } := by
  unfold placePixel
  rw [h]
  rfl

theorem createOffspring_reg_ne (st : SimState) (parent : Pixel)
    (cr : CombatRandoms) (j : Nat) (hj : j ≠ st.counter) :
    regGet (createOffspring st parent cr).reg j = regGet st.reg j := by
  unfold createOffspring
  rcases createOffspringGo_cases st parent cr cr.offs with h | ⟨nx, ny, hf, h⟩
  · rw [h]
  · rw [h, placePixel_board_of_falsy _ _ hf]
    exact regGet_regSet_ne _ _ _ hj

theorem createOffspring_board_ne (st : SimState) (parent : Pixel)
    (cr : CombatRandoms) (i : Nat) (hi : i ≠ st.counter)
    (hb : ∀ x y, st.board x y ≠ some i) :
    ∀ x y, (createOffspring st parent cr).board x y ≠ some i := by
  unfold createOffspring
  rcases createOffspringGo_cases st parent cr cr.offs with h | ⟨nx, ny, hf, h⟩
  · rw [h]; exact hb
  · rw [h, placePixel_board_of_falsy _ _ hf]
    intro x y
    show setCell st.board nx ny (some st.counter) x y ≠ some i
    unfold setCell
    split
    · simp [Ne.symm hi]
    · exact hb x y

theorem resolveCombat_eq_awin (st : SimState) (a b : Pixel) (cr : CombatRandoms)
    (hA : 0 < (combatLoop a.genes b.genes a.hp b.hp (firstMover a b)).1)
    (hl : (combatLoop a.genes b.genes a.hp b.hp (firstMover a b)).2.1 ≤ 0) :
    resolveCombat st a b cr =
      ({ a with hp := (a.maxHp : Int) },
        createOffspring
          { board := setCell st.board b.x b.y none
            reg := regSetHp
              (regDelete
                (regSetHp
                  (regSetHp st.reg a.id
                    (combatLoop a.genes b.genes a.hp b.hp (firstMover a b)).1)
                  b.id
                  (combatLoop a.genes b.genes a.hp b.hp (firstMover a b)).2.1)
                b.id)
              a.id (a.maxHp : Int)
            counter := st.counter }
          { a with hp := (a.maxHp : Int) } cr) := by
  unfold resolveCombat
  dsimp only
  rw [if_pos hA]
  dsimp only
  rw [if_pos hl]
  rfl

theorem resolveCombat_eq_bwin (st : SimState) (a b : Pixel) (cr : CombatRandoms)
    (hA : ¬ 0 < (combatLoop a.genes b.genes a.hp b.hp (firstMover a b)).1)
    (hl : (combatLoop a.genes b.genes a.hp b.hp (firstMover a b)).1 ≤ 0) :
    resolveCombat st a b cr =
      ({ b with hp := (b.maxHp : Int) },
        createOffspring
          { board := setCell st.board a.x a.y none
            reg := regSetHp
              (regDelete
                (regSetHp
                  (regSetHp st.reg a.id
                    (combatLoop a.genes b.genes a.hp b.hp (firstMover a b)).1)
                  b.id
                  (combatLoop a.genes b.genes a.hp b.hp (firstMover a b)).2.1)
                a.id)
              b.id (b.maxHp : Int)
            counter := st.counter }
          { b with hp := (b.maxHp : Int) } cr) := by
  unfold resolveCombat
  dsimp only
  rw [if_neg hA]
  dsimp only
  rw [if_pos hl]
  rfl

/-- C4: for two distinct agents, both alive (hp > 0) and consistently
recorded (each one registered under its id and present in the grid exactly
at its recorded cell, with all registry ids below the fresh-id counter),
after resolveCombat the loser's id is gone from every grid cell and from
the registry, and the returned winner — one of the two original agents —
has current hp equal to its maxHp, both on the returned object and on its
registry record. -/
theorem resolveCombat_removes_loser_heals_winner
    (st : SimState) (a b : Pixel) (cr : CombatRandoms)
    (ha : regGet st.reg a.id = some a) (hb : regGet st.reg b.id = some b)
    (hne : a.id ≠ b.id) (hahp : 0 < a.hp) (hbhp : 0 < b.hp)
    (haonly : ∀ x y, st.board x y = some a.id → x = a.x ∧ y = a.y)
    (hbonly : ∀ x y, st.board x y = some b.id → x = b.x ∧ y = b.y)
    (hfresh : ∀ p ∈ st.reg, p.id < st.counter) :
    ((resolveCombat st a b cr).1.id = a.id ∨ (resolveCombat st a b cr).1.id = b.id) ∧
      (∀ x y, (resolveCombat st a b cr).2.board x y ≠
        some (if (resolveCombat st a b cr).1.id = a.id then b.id else a.id)) ∧
      (regGet (resolveCombat st a b cr).2.reg
        (if (resolveCombat st a b cr).1.id = a.id then b.id else a.id) = none) ∧
      (resolveCombat st a b cr).1.hp = ((resolveCombat st a b cr).1.maxHp : Int) ∧
      (∃ pw, regGet (resolveCombat st a b cr).2.reg
        (resolveCombat st a b cr).1.id = some pw ∧ pw.hp = (pw.maxHp : Int)) := by
  have hod := combatLoop_one_dead a.genes b.genes a.hp b.hp (firstMover a b) hahp hbhp
  have hbfresh : b.id < st.counter := hfresh b (regGet_mem _ _ _ hb)
  have hafresh : a.id < st.counter := hfresh a (regGet_mem _ _ _ ha)
  rcases hod with ⟨hw, hl⟩ | ⟨hw, hl⟩
  · rw [resolveCombat_eq_awin st a b cr hw hl]
    dsimp only
    have hif : (if a.id = a.id then b.id else a.id) = b.id := if_pos rfl
    rw [hif]
    refine ⟨Or.inl rfl, ?_, ?_, rfl, ?_⟩
    · apply createOffspring_board_ne
      · exact Nat.ne_of_lt hbfresh
      · intro x y
        show setCell st.board b.x b.y none x y ≠ some b.id
        unfold setCell
        split
        · simp
        · next hxy =>
          intro hcell
          exact hxy (hbonly x y hcell)
    · rw [createOffspring_reg_ne]
      · show regGet (regSetHp _ a.id _) b.id = none
        rw [regGet_regSetHp_ne _ _ _ _ (Ne.symm hne), regGet_regDelete_eq]
      · exact Nat.ne_of_lt hbfresh
    · refine ⟨{ a with hp := (a.maxHp : Int) }, ?_, rfl⟩
      rw [createOffspring_reg_ne]
      · show regGet (regSetHp _ a.id _) a.id = some _
        rw [regGet_regSetHp_eq, regGet_regDelete_ne _ _ _ hne,
          regGet_regSetHp_ne _ _ _ _ hne, regGet_regSetHp_eq, ha]
        rfl
      · exact Nat.ne_of_lt hafresh
  · rw [resolveCombat_eq_bwin st a b cr (by omega) hw]
    dsimp only
    have hif : (if b.id = a.id then b.id else a.id) = a.id :=
      if_neg fun hc => hne hc.symm
    rw [hif]
    refine ⟨Or.inr rfl, ?_, ?_, rfl, ?_⟩
    · apply createOffspring_board_ne
      · exact Nat.ne_of_lt hafresh
      · intro x y
        show setCell st.board a.x a.y none x y ≠ some a.id
        unfold setCell
        split
        · simp
        · next hxy =>
          intro hcell
          exact hxy (haonly x y hcell)
    · rw [createOffspring_reg_ne]
      · show regGet (regSetHp _ b.id _) a.id = none
        rw [regGet_regSetHp_ne _ _ _ _ hne, regGet_regDelete_eq]
      · exact Nat.ne_of_lt hafresh
    · refine ⟨{ b with hp := (b.maxHp : Int) }, ?_, rfl⟩
      rw [createOffspring_reg_ne]
      · show regGet (regSetHp _ b.id _) b.id = some _
        rw [regGet_regSetHp_eq, regGet_regDelete_ne _ _ _ (Ne.symm hne),
          regGet_regSetHp_eq, regGet_regSetHp_ne _ _ _ _ (Ne.symm hne), hb]
        rfl
      · exact Nat.ne_of_lt hbfresh

/-- C2 (amended): placePixel returns false and mutates nothing when the
target cell is occupied by a nonzero agent id; when the cell is empty or
holds the (falsy) id 0 it records the pixel in the grid cell and the
registry and returns true. -/
theorem placePixel_spec (st : SimState) (p : Pixel) :
    (∀ j, getCell st.board p.x p.y = some (j + 1) → placePixel p st = (st, false)) ∧
      ((getCell st.board p.x p.y = none ∨ getCell st.board p.x p.y = some 0) →
        placePixel p st =
          ({ st with
              board := setCell st.board p.x p.y (some p.id)
              reg := regSet st.reg p }, true)) := by
  constructor
  · intro j hj
    unfold placePixel
    rw [hj]
    rfl
  · intro hj
    rcases hj with hj | hj <;>
      (unfold placePixel; rw [hj]; rfl)

def offsetBlocked (st : SimState) (parent : Pixel) (d : Int × Int) : Prop :=
  ((parent.x : Int) + d.1 < 0 ∨ (parent.y : Int) + d.2 < 0 ∨
      (gridSize : Int) ≤ (parent.x : Int) + d.1 ∨
      (gridSize : Int) ≤ (parent.y : Int) + d.2) ∨
    truthy (getCell st.board ((parent.x : Int) + d.1).toNat
      ((parent.y : Int) + d.2).toNat) = true

instance (st : SimState) (parent : Pixel) (d : Int × Int) :
    Decidable (offsetBlocked st parent d) := by
  unfold offsetBlocked
  infer_instance

theorem createOffspringGo_all_blocked (st : SimState) (parent : Pixel)
    (cr : CombatRandoms) (l : List (Int × Int))
    (hall : ∀ d ∈ l, offsetBlocked st parent d) :
    createOffspringGo st parent cr l = st := by
  induction l with
  | nil => rfl
  | cons d rest ih =>
    obtain ⟨dx, dy⟩ := d
    rw [createOffspringGo]
    split
    · exact ih fun d hd => hall d (List.mem_cons_of_mem _ hd)
    · next hoob =>
      split
      · exact ih fun d hd => hall d (List.mem_cons_of_mem _ hd)
      · next htr =>
        exfalso
        rcases hall (dx, dy) (List.mem_cons_self _ _) with h | h
        · exact hoob h
        · exact htr (by simpa using h)

/-- C9 (amended): if every one of the 12 candidate offsets is blocked in
the code's sense — out of bounds, or the target cell holds a truthy
(nonzero) id — then createOffspring returns the state unchanged for every
shuffled candidate order. -/
theorem createOffspring_all_blocked_noop (st : SimState) (parent : Pixel)
    (cr : CombatRandoms) (hperm : cr.offs.Perm offspringOffsets)
    (hall : ∀ d ∈ offspringOffsets, offsetBlocked st parent d) :
    createOffspring st parent cr = st :=
  createOffspringGo_all_blocked st parent cr cr.offs
    fun d hd => hall d (hperm.mem_iff.mp hd)

/-- C6 (amended): whenever the mover's target cell holds a nonzero agent id
whose registered agent has a gene code identical to the mover's, the
movement sub-step is skipped with no effect — the state is returned
unchanged and the sub-step loop continues; in particular no combat is
invoked.  (For the id-0 occupant the code instead moves onto the cell; see
the counterexample.) -/
theorem moveSubStep_same_code_skips (st : SimState) (p : Pixel) (dirIdx : Nat)
    (cr : CombatRandoms) (oid : Nat)
    (hocc : getCell st.board (targetCell p dirIdx).1 (targetCell p dirIdx).2 =
      some oid)
    (h0 : oid ≠ 0) (q : Pixel) (hq : regGet st.reg oid = some q)
    (hcode : q.geneCode = p.geneCode) :
    moveSubStep st p dirIdx cr = (st, true) := by
  unfold moveSubStep
  dsimp only
  by_cases hself : (targetCell p dirIdx).1 = p.x ∧ (targetCell p dirIdx).2 = p.y
  · rw [if_pos hself]
  · rw [if_neg hself, hocc]
    have htr : truthy (some oid) = true := by simp [truthy, h0]
    rw [htr, if_neg (by simp)]
    show (if (some oid).getD 0 = p.id then (st, true) else _) = (st, true)
    by_cases hid : oid = p.id
    · rw [if_pos (by simpa using hid)]
    · rw [if_neg (by simpa using hid)]
      show (match regGet st.reg ((some oid).getD 0) with
        | none => (st, true)
        | some opponent => _) = (st, true)
      have hq' : regGet st.reg ((some oid).getD 0) = some q := by simpa using hq
      rw [hq']
      dsimp only
      rw [if_pos hcode.symm]

/-- C5: for every gene vector with hp at least 1 and every outcome of the
mutation rolls, mutateGenes preserves the category sum and keeps hp at
least 1 (an hp of exactly 1 is never an eligible donor). -/
theorem mutateGenes_conserves_total (g : Genes) (dm : Bool) (fr tr : Nat)
    (h : 1 ≤ g.hp) :
    geneSum (mutateGenes g dm fr tr) = geneSum g ∧
      1 ≤ (mutateGenes g dm fr tr).hp := by
  unfold mutateGenes
  split
  · dsimp only
    split
    · exact ⟨rfl, h⟩
    · next from_ hfe =>
      have hmem := List.get?_mem hfe
      have helig := (List.mem_filter.mp hmem).2
      split
      · exact ⟨rfl, h⟩
      · next to_ hte =>
        have hmem2 := List.get?_mem hte
        have hne := (List.mem_filter.mp hmem2).2
        simp only [decide_eq_true_eq, gt_iff_lt] at helig hne
        cases from_ <;> cases to_ <;> simp_all [gget, gset, geneSum] <;> omega
  · exact ⟨rfl, h⟩

/-- C7: randomGenes always returns hp at least 1; the category sum equals
the requested total except when the randomly distributed hp count was 0, in
which case the forced hp unit makes the sum total + 1. -/
theorem randomGenes_total_spec (total : Nat) (rolls : Nat → Nat) :
    1 ≤ (randomGenes total rolls).hp ∧
      ((distributeGenes total rolls).hp = 0 →
        geneSum (randomGenes total rolls) = total + 1) ∧
      ((distributeGenes total rolls).hp ≠ 0 →
        geneSum (randomGenes total rolls) = total) := by
  have h := geneSum_distributeGenes total rolls
  unfold randomGenes
  by_cases h0 : (distributeGenes total rolls).hp = 0 <;>
    simp [h0, geneSum] at h ⊢ <;> omega

/-- C10: genesToCode is injective — two gene vectors produce the same code
string exactly when all four category counts coincide, so gene-code equality
is an exact comparison of gene vectors. -/
theorem genesToCode_injective (g1 g2 : Genes) :
    genesToCode g1 = genesToCode g2 ↔ g1 = g2 := by
  constructor
  · intro h
    have hd : (GENE_TYPES.flatMap fun t => List.replicate (gget g1 t) (GENE_SYMBOL t)) =
        (GENE_TYPES.flatMap fun t => List.replicate (gget g2 t) (GENE_SYMBOL t)) :=
      congrArg String.data h
    have ha := congrArg (List.count 'A') hd
    have hb := congrArg (List.count 'D') hd
    have hc := congrArg (List.count 'S') hd
    have hh := congrArg (List.count 'H') hd
    simp [GENE_TYPES, gget, GENE_SYMBOL, List.count_append,
      List.count_replicate] at ha hb hc hh
    cases g1; cases g2
    simp_all
  · intro h
    rw [h]

def crNone : CombatRandoms := ⟨[], false, 0, 0⟩

def pC1a : Pixel := mkPixel 0 0 0 ⟨0, 0, 0, 1⟩ 0

def pC1b : Pixel := mkPixel 1 1 0 ⟨0, 0, 1, 1⟩ 1

def stC1 : SimState :=
  ⟨fun x y =>
    if x = 0 ∧ y = 0 then some 0 else if x = 1 ∧ y = 0 then some 1 else none,
    [pC1a, pC1b], 2⟩

def stC1' : SimState :=
  stepSimulation stC1 [1, 0] (fun i _ => if i = 0 then 1 else 7) fun _ => crNone

/-- C1 (code bug): occupancy consistency is violated by the code.  The
two-agent state stC1 is well formed (occupancy-consistent), yet one tick in
which agent 1 steps left onto agent 0's cell leaves agent 0 alive in the
registry, still recorded at (0, 0), while the grid cell (0, 0) holds id 1:
the source tests cell occupancy with JS truthiness, and the id 0 is falsy,
so the mover treats agent 0's cell as empty and overwrites it.  (The same
invariant is also broken when a winner's offspring spawns in the vacated
target cell the mover then moves into.) -/
theorem stepSimulation_occupancy_code_bug :
    wellFormed stC1 = true ∧
      regGet stC1'.reg 0 = some pC1a ∧
      getCell stC1'.board pC1a.x pC1a.y = some 1 ∧
      occupancyOK stC1' = false := by
  decide

def pC2occ : Pixel := mkPixel 0 0 0 ⟨0, 0, 0, 1⟩ 0

def stC2 : SimState :=
  ⟨fun x y => if x = 0 ∧ y = 0 then some 0 else none, [pC2occ], 1⟩

def pC2new : Pixel := mkPixel 1 0 0 ⟨0, 0, 1, 1⟩ 0

/-- C2 counterexample: in the well-formed state stC2 the target cell (0, 0)
is occupied by the live agent with id 0, yet placePixel succeeds (returns
true) and overwrites the cell, contradicting the claim that placement onto
any occupied cell fails with no mutation. -/
theorem placePixel_occupied_cell_counterexample :
    wellFormed stC2 = true ∧
      getCell stC2.board pC2new.x pC2new.y = some pC2occ.id ∧
      regGet stC2.reg pC2occ.id = some pC2occ ∧
      (placePixel pC2new stC2).2 = true ∧
      getCell (placePixel pC2new stC2).1.board 0 0 = some 1 := by
  decide

def stW2 : SimState :=
  ⟨fun x y => if x = 0 ∧ y = 0 then some 3 else none,
    [mkPixel 3 0 0 ⟨0, 0, 0, 1⟩ 0], 4⟩

def pW2 : Pixel := mkPixel 4 0 0 ⟨0, 0, 1, 1⟩ 0

/-- C2 witness: placePixel_spec applied to a concrete state whose target
cell holds id 3. -/
theorem placePixel_spec_witness :
    getCell stW2.board pW2.x pW2.y = some (2 + 1) ∧
      placePixel pW2 stW2 = (stW2, false) :=
  ⟨by decide, (placePixel_spec stW2 pW2).1 2 (by decide)⟩

def pC6a : Pixel := mkPixel 0 0 0 ⟨0, 0, 1, 1⟩ 0

def pC6b : Pixel := mkPixel 1 1 0 ⟨0, 0, 1, 1⟩ 1

def stC6 : SimState :=
  ⟨fun x y =>
    if x = 0 ∧ y = 0 then some 0 else if x = 1 ∧ y = 0 then some 1 else none,
    [pC6a, pC6b], 2⟩

/-- C6 counterexample: two agents with identical gene codes, the occupant
having id 0.  The mover's sub-step is NOT skipped: because id 0 is falsy,
the mover takes the empty-cell branch and moves onto the occupant's cell,
overwriting its grid entry — a state change, contradicting the claim's
sub-step-skipped-with-no-effect clause. -/
theorem moveSubStep_same_code_id_zero_counterexample :
    wellFormed stC6 = true ∧
      pC6b.geneCode = pC6a.geneCode ∧
      getCell stC6.board (targetCell pC6b 1).1 (targetCell pC6b 1).2 =
        some pC6a.id ∧
      regGet stC6.reg pC6a.id = some pC6a ∧
      getCell (moveSubStep stC6 pC6b 1 crNone).1.board 0 0 = some pC6b.id := by
  decide

def pW6a : Pixel := mkPixel 1 0 0 ⟨0, 0, 1, 1⟩ 0

def pW6b : Pixel := mkPixel 2 1 0 ⟨0, 0, 1, 1⟩ 1

def stW6 : SimState :=
  ⟨fun x y =>
    if x = 0 ∧ y = 0 then some 1 else if x = 1 ∧ y = 0 then some 2 else none,
    [pW6a, pW6b], 3⟩

/-- C6 witness: the amended theorem applied to two same-code agents with
ids 1 and 2. -/
theorem moveSubStep_same_code_skips_witness :
    getCell stW6.board (targetCell pW6b 1).1 (targetCell pW6b 1).2 = some 1 ∧
      (1 : Nat) ≠ 0 ∧
      regGet stW6.reg 1 = some pW6a ∧
      pW6a.geneCode = pW6b.geneCode ∧
      moveSubStep stW6 pW6b 1 crNone = (stW6, true) :=
  ⟨by decide, by decide, by decide, by decide,
    moveSubStep_same_code_skips stW6 pW6b 1 crNone 1 (by decide) (by decide)
      pW6a (by decide) (by decide)⟩

def boardC9 : Board := fun x y =>
  if x = 10 ∧ y = 10 then some 12
  else if x = 10 ∧ y = 8 then some 1
  else if x = 9 ∧ y = 9 then some 2
  else if x = 10 ∧ y = 9 then some 3
  else if x = 11 ∧ y = 9 then some 4
  else if x = 8 ∧ y = 10 then some 5
  else if x = 9 ∧ y = 10 then some 6
  else if x = 11 ∧ y = 10 then some 0
  else if x = 12 ∧ y = 10 then some 7
  else if x = 9 ∧ y = 11 then some 8
  else if x = 10 ∧ y = 11 then some 9
  else if x = 11 ∧ y = 11 then some 10
  else if x = 10 ∧ y = 12 then some 11
  else none

def pC9 : Pixel := mkPixel 12 10 10 ⟨0, 0, 0, 1⟩ 3

def regC9 : List Pixel :=
  [mkPixel 0 11 10 ⟨0, 0, 0, 1⟩ 0,
    mkPixel 1 10 8 ⟨0, 0, 0, 1⟩ 0,
    mkPixel 2 9 9 ⟨0, 0, 0, 1⟩ 0,
    mkPixel 3 10 9 ⟨0, 0, 0, 1⟩ 0,
    mkPixel 4 11 9 ⟨0, 0, 0, 1⟩ 0,
    mkPixel 5 8 10 ⟨0, 0, 0, 1⟩ 0,
    mkPixel 6 9 10 ⟨0, 0, 0, 1⟩ 0,
    mkPixel 7 12 10 ⟨0, 0, 0, 1⟩ 0,
    mkPixel 8 9 11 ⟨0, 0, 0, 1⟩ 0,
    mkPixel 9 10 11 ⟨0, 0, 0, 1⟩ 0,
    mkPixel 10 11 11 ⟨0, 0, 0, 1⟩ 0,
    mkPixel 11 10 12 ⟨0, 0, 0, 1⟩ 0,
    pC9]

def stC9 : SimState := ⟨boardC9, regC9, 13⟩

def crC9 : CombatRandoms := ⟨offspringOffsets, false, 0, 0⟩

/-- C9 counterexample: a parent whose 12 candidate cells are all within
bounds and all occupied — one of them by the agent with id 0.  No candidate
is empty, yet createOffspring still creates a child (id 13), because the
falsy id 0 makes its cell look free to the code. -/
theorem createOffspring_id_zero_counterexample :
    wellFormed stC9 = true ∧
      (∀ d ∈ offspringOffsets,
        ¬(0 ≤ (pC9.x : Int) + d.1 ∧ 0 ≤ (pC9.y : Int) + d.2 ∧
          (pC9.x : Int) + d.1 < (gridSize : Int) ∧
          (pC9.y : Int) + d.2 < (gridSize : Int) ∧
          getCell stC9.board ((pC9.x : Int) + d.1).toNat
            ((pC9.y : Int) + d.2).toNat = none)) ∧
      regGet (createOffspring stC9 pC9 crC9).reg 13 =
        some (mkPixel 13 11 10 ⟨0, 0, 0, 1⟩ 3) := by
  decide

def boardW9 : Board := fun x y =>
  if x = 0 ∧ y = 0 then some 6
  else if x = 1 ∧ y = 0 then some 1
  else if x = 2 ∧ y = 0 then some 2
  else if x = 0 ∧ y = 1 then some 3
  else if x = 1 ∧ y = 1 then some 4
  else if x = 0 ∧ y = 2 then some 5
  else none

def pW9 : Pixel := mkPixel 6 0 0 ⟨0, 0, 0, 1⟩ 0

def regW9 : List Pixel :=
  [mkPixel 1 1 0 ⟨0, 0, 0, 1⟩ 0,
    mkPixel 2 2 0 ⟨0, 0, 0, 1⟩ 0,
    mkPixel 3 0 1 ⟨0, 0, 0, 1⟩ 0,
    mkPixel 4 1 1 ⟨0, 0, 0, 1⟩ 0,
    mkPixel 5 0 2 ⟨0, 0, 0, 1⟩ 0,
    pW9]

def stW9 : SimState := ⟨boardW9, regW9, 7⟩

/-- C9 witness: the amended theorem applied to a corner parent whose five
in-bounds candidate cells are occupied by nonzero ids. -/
theorem createOffspring_all_blocked_noop_witness :
    offspringOffsets.Perm offspringOffsets ∧
      (∀ d ∈ offspringOffsets, offsetBlocked stW9 pW9 d) ∧
      createOffspring stW9 pW9 crC9 = stW9 :=
  ⟨List.Perm.refl _, by decide,
    createOffspring_all_blocked_noop stW9 pW9 crC9 (List.Perm.refl _) (by decide)⟩

/-- C3 (amended): for two distinct agents with both starting hp positive,
resolveCombat returns exactly one of the two original agents (healed to its
maxHp) as the winner, and the duel runs a finite number of turns bounded by
the SUM of the two starting hp values (the loser's-hp bound of the original
claim fails; see the counterexample).  Termination itself is witnessed by
combatLoop being a total function. -/
theorem resolveCombat_terminates_winner (st : SimState) (a b : Pixel)
    (cr : CombatRandoms) (hne : a.id ≠ b.id) (ha : 0 < a.hp) (hb : 0 < b.hp) :
    ((resolveCombat st a b cr).1 = { a with hp := (a.maxHp : Int) } ∨
      (resolveCombat st a b cr).1 = { b with hp := (b.maxHp : Int) }) ∧
      (combatLoop a.genes b.genes a.hp b.hp (firstMover a b)).2.2.length ≤
        a.hp.toNat + b.hp.toNat := by
  refine ⟨?_, combatLoop_length _ _ _ _ _⟩
  rcases combatLoop_one_dead a.genes b.genes a.hp b.hp (firstMover a b) ha hb with
    ⟨hw, hl⟩ | ⟨hw, hl⟩
  · rw [resolveCombat_eq_awin st a b cr hw hl]
    exact Or.inl rfl
  · rw [resolveCombat_eq_bwin st a b cr (by omega) hw]
    exact Or.inr rfl

def pC3a : Pixel := mkPixel 1 0 0 ⟨1, 5, 2, 100⟩ 0

def pC3b : Pixel := mkPixel 2 1 0 ⟨1, 5, 1, 3⟩ 1

unseal combatLoop in
/-- C3 counterexample: a duel (attack 1 against defense 5 on both sides,
so every blow deals the floor damage 1) in which the loser starts with 3 hp
yet the duel takes 5 turns, because the loser also acts on the turns between
the winner's blows.  The turn count is therefore not bounded by the loser's
starting hp. -/
theorem resolveCombat_turns_exceed_loser_hp :
    0 < pC3a.hp ∧ 0 < pC3b.hp ∧
      (combatLoop pC3a.genes pC3b.genes pC3a.hp pC3b.hp
        (firstMover pC3a pC3b)).2.1 ≤ 0 ∧
      (combatLoop pC3a.genes pC3b.genes pC3a.hp pC3b.hp
        (firstMover pC3a pC3b)).2.2.length = 5 ∧
      pC3b.hp.toNat < (combatLoop pC3a.genes pC3b.genes pC3a.hp pC3b.hp
        (firstMover pC3a pC3b)).2.2.length := by
  decide

/-- C8: the first recorded turn of the duel belongs to firstMover, which
is the attacker exactly when its speed is strictly higher or tied, and the
defender exactly when the defender's speed is strictly higher (a true entry
in the turn trace is a turn on which the attacker dealt damage). -/
theorem resolveCombat_turn_order (a b : Pixel) (ha : 0 < a.hp) (hb : 0 < b.hp) :
    (combatLoop a.genes b.genes a.hp b.hp (firstMover a b)).2.2.head? =
      some (firstMover a b) ∧
      (b.genes.speed < a.genes.speed → firstMover a b = true) ∧
      (a.genes.speed < b.genes.speed → firstMover a b = false) ∧
      (a.genes.speed = b.genes.speed → firstMover a b = true) := by
  refine ⟨combatLoop_head _ _ _ _ _ ha hb, ?_, ?_, ?_⟩ <;> intro h <;>
    unfold firstMover
  · simp [h]
  · have h1 : ¬ b.genes.speed < a.genes.speed := lt_asymm h
    simp [h, h1]
  · simp [h, lt_irrefl]

def stEmpty : SimState := ⟨fun _ _ => none, [], 0⟩

def pW3a : Pixel := mkPixel 1 0 0 ⟨5, 0, 3, 3⟩ 0

def pW3b : Pixel := mkPixel 2 1 0 ⟨1, 0, 1, 1⟩ 1

/-- C3 witness: the amended theorem applied to the spec's simple-kill
scenario, attack 5 speed 3 hp 3 versus attack 1 speed 1 hp 1. -/
theorem resolveCombat_terminates_winner_witness :
    pW3a.id ≠ pW3b.id ∧ 0 < pW3a.hp ∧ 0 < pW3b.hp ∧
      (((resolveCombat stEmpty pW3a pW3b crNone).1 =
          { pW3a with hp := (pW3a.maxHp : Int) } ∨
        (resolveCombat stEmpty pW3a pW3b crNone).1 =
          { pW3b with hp := (pW3b.maxHp : Int) }) ∧
        (combatLoop pW3a.genes pW3b.genes pW3a.hp pW3b.hp
          (firstMover pW3a pW3b)).2.2.length ≤
            pW3a.hp.toNat + pW3b.hp.toNat) :=
  ⟨by decide, by decide, by decide,
    resolveCombat_terminates_winner stEmpty pW3a pW3b crNone (by decide)
      (by decide) (by decide)⟩

def pW4a : Pixel := mkPixel 1 0 0 ⟨5, 0, 3, 3⟩ 0

def pW4b : Pixel := mkPixel 2 1 0 ⟨1, 0, 1, 1⟩ 1

def stW4 : SimState :=
  ⟨fun x y =>
    if x = 0 ∧ y = 0 then some 1 else if x = 1 ∧ y = 0 then some 2 else none,
    [pW4a, pW4b], 3⟩

/-- C4 witness: the theorem applied to a concrete two-agent state in which
agent 1 (attack 5) kills agent 2 (hp 1). -/
theorem resolveCombat_removes_loser_heals_winner_witness :
    regGet stW4.reg pW4a.id = some pW4a ∧
      regGet stW4.reg pW4b.id = some pW4b ∧
      pW4a.id ≠ pW4b.id ∧ 0 < pW4a.hp ∧ 0 < pW4b.hp ∧
      (((resolveCombat stW4 pW4a pW4b crNone).1.id = pW4a.id ∨
          (resolveCombat stW4 pW4a pW4b crNone).1.id = pW4b.id) ∧
        (∀ x y, (resolveCombat stW4 pW4a pW4b crNone).2.board x y ≠
          some (if (resolveCombat stW4 pW4a pW4b crNone).1.id = pW4a.id
            then pW4b.id else pW4a.id)) ∧
        (regGet (resolveCombat stW4 pW4a pW4b crNone).2.reg
          (if (resolveCombat stW4 pW4a pW4b crNone).1.id = pW4a.id
            then pW4b.id else pW4a.id) = none) ∧
        (resolveCombat stW4 pW4a pW4b crNone).1.hp =
          ((resolveCombat stW4 pW4a pW4b crNone).1.maxHp : Int) ∧
        (∃ pw, regGet (resolveCombat stW4 pW4a pW4b crNone).2.reg
          (resolveCombat stW4 pW4a pW4b crNone).1.id = some pw ∧
            pw.hp = (pw.maxHp : Int))) := by
  refine ⟨by decide, by decide, by decide, by decide, by decide,
    resolveCombat_removes_loser_heals_winner stW4 pW4a pW4b crNone (by decide)
      (by decide) (by decide) (by decide) (by decide) ?_ ?_ (by decide)⟩
  · intro x y h
    simp only [stW4] at h
    split_ifs at h with h1 h2
    · exact ⟨h1.1, h1.2⟩
    · exact absurd h (by decide)
  · intro x y h
    simp only [stW4] at h
    split_ifs at h with h1 h2
    · exact absurd h (by decide)
    · exact ⟨h2.1, h2.2⟩

/-- C5 witness: the theorem applied to the gene vector (2,2,2,2) with a
mutation that moves one unit from attack to defense. -/
theorem mutateGenes_conserves_total_witness :
    1 ≤ (⟨2, 2, 2, 2⟩ : Genes).hp ∧
      (geneSum (mutateGenes ⟨2, 2, 2, 2⟩ true 0 0) = geneSum ⟨2, 2, 2, 2⟩ ∧
        1 ≤ (mutateGenes ⟨2, 2, 2, 2⟩ true 0 0).hp) :=
  ⟨by decide, mutateGenes_conserves_total ⟨2, 2, 2, 2⟩ true 0 0 (by decide)⟩

/-- C7 witness: the theorem applied at total 0, where the distributed hp
is 0 and the sum becomes 1. -/
theorem randomGenes_total_spec_witness :
    1 ≤ (randomGenes 0 fun _ => 0).hp ∧
      (distributeGenes 0 fun _ => 0).hp = 0 ∧
      geneSum (randomGenes 0 fun _ => 0) = 0 + 1 :=
  ⟨(randomGenes_total_spec 0 fun _ => 0).1, by decide,
    (randomGenes_total_spec 0 fun _ => 0).2.1 (by decide)⟩

def pW8a : Pixel := mkPixel 1 0 0 ⟨2, 0, 1, 2⟩ 0

def pW8b : Pixel := mkPixel 2 1 0 ⟨1, 1, 1, 3⟩ 1

/-- C8 witness: the theorem applied to a speed tie, where the attacker
acts first. -/
theorem resolveCombat_turn_order_witness :
    0 < pW8a.hp ∧ 0 < pW8b.hp ∧
      pW8a.genes.speed = pW8b.genes.speed ∧
      ((combatLoop pW8a.genes pW8b.genes pW8a.hp pW8b.hp
          (firstMover pW8a pW8b)).2.2.head? = some (firstMover pW8a pW8b) ∧
        (pW8b.genes.speed < pW8a.genes.speed → firstMover pW8a pW8b = true) ∧
        (pW8a.genes.speed < pW8b.genes.speed → firstMover pW8a pW8b = false) ∧
        (pW8a.genes.speed = pW8b.genes.speed → firstMover pW8a pW8b = true)) :=
  ⟨by decide, by decide, by decide,
    resolveCombat_turn_order pW8a pW8b (by decide) (by decide)⟩
